import Mathlib

/-!
Shallow embedding of the go.nbt NBT codec (decode.go, encode.go, tag.go).

Go byte streams are modelled as `List Nat` (each element one byte on the
wire).  Go fixed-width integers are modelled by their bit patterns as `Nat`
(reduced modulo 2^w exactly where the Go code performs a conversion).
Floats are carried as raw IEEE bit patterns, which is faithful because the
codec only transports their bytes and never does float arithmetic.
Panics recovered by Marshal and Unmarshal become `Except GoError` results;
the per-level defer handlers in the source that re-panic with positional
context become the error wrappers atStructField and atListIndex.
Reflection kinds of decode targets are modelled by the `GoType` of the
target slot; reflect.Value contents are modelled by `GoVal`.
-/

namespace GoNbt

/-- Tag codes from tag.go: tagEnd = 0 through tagLongArray = 12. -/
def tagEnd : Nat := 0
def tagByte : Nat := 1
def tagShort : Nat := 2
def tagInt : Nat := 3
def tagLong : Nat := 4
def tagFloat : Nat := 5
def tagDouble : Nat := 6
def tagByteArray : Nat := 7
def tagString : Nat := 8
def tagList : Nat := 9
def tagCompound : Nat := 10
def tagIntArray : Nat := 11
def tagLongArray : Nat := 12

/-- Compression constants from tag.go. -/
def Uncompressed : Nat := 0
def GZip : Nat := 1
def ZLib : Nat := 2

/-- Go reflection kinds and element types of decode/encode targets.
tMap stands for map[string]interface, tIface for interface, and tInt and
tUint for the platform-width int and uint kinds that the decoder rejects. -/
inductive GoType where
  | tBool
  | tInt8
  | tUint8
  | tInt16
  | tUint16
  | tInt32
  | tUint32
  | tInt64
  | tUint64
  | tInt
  | tUint
  | tFloat32
  | tFloat64
  | tString
  | tSlice (elem : GoType)
  | tArray (len : Nat) (elem : GoType)
  | tStruct (fields : List (List Nat × GoType))
  | tMap
  | tIface
  | tPtr (elem : GoType)

/-- Contents of a reflect.Value: bit patterns for scalars, byte lists for
strings, element lists for slices and arrays, name keyed pairs for structs
and maps.  Slices and arrays carry their element GoType because the Go
code consults v.Type().Elem(). -/
inductive GoVal where
  | vBool (b : Bool)
  | vInt8 (bits : Nat)
  | vUint8 (bits : Nat)
  | vInt16 (bits : Nat)
  | vUint16 (bits : Nat)
  | vInt32 (bits : Nat)
  | vUint32 (bits : Nat)
  | vInt64 (bits : Nat)
  | vUint64 (bits : Nat)
  | vFloat32 (bits : Nat)
  | vFloat64 (bits : Nat)
  | vString (bytes : List Nat)
  | vSlice (elem : GoType) (items : List GoVal)
  | vArray (elem : GoType) (items : List GoVal)
  | vStruct (fields : List (List Nat × GoVal))
  | vMap (entries : List (List Nat × GoVal))
  | vPtr (pointee : Option GoVal)

/-- Errors: one constructor per distinct panic site of the source, plus the
positional wrappers produced by the recover/re-panic defer handlers.
ioFailure models a failed binary.Read, binary.Write or stream Read or Write;
unhandledTag is the panic "nbt: Unhandled tag" from allocate and from
readValue, and the panic "nbt: Unhandled %s" raised for an unknown struct
field name (the source formats the tag into that message and the field name
is attached by the surrounding defer, modelled by atStructField);
cannotStore is "nbt: Tag is %s, but I do not know how to put that in a %s!";
intUintUnsupported is "nbt: int and uint types are not supported for
portability reasons. Try int32 or uint32."; capacityExceeded carries the
wire count and the target array length from the array-too-small panic;
outOfFuel has no Go counterpart and marks exhausted recursion fuel. -/
inductive GoError where
  | nilStream
  | unknownCompression (c : Nat)
  | ioFailure
  | unhandledTag (tag : Nat)
  | cannotStore (tag : Nat) (kind : GoType)
  | intUintUnsupported
  | capacityExceeded (wire : Nat) (target : Nat)
  | unhandledType
  | unhandledArrayType
  | unhandledListElemType
  | typeAssertion
  | atListIndex (i : Nat) (e : GoError)
  | atStructField (name : List Nat) (e : GoError)
  | outOfFuel

/-- Reads one byte (binary.Read into a uint8 or a Tag). -/
def readU8 : List Nat → Except GoError (Nat × List Nat)
  | [] => .error .ioFailure
  | b :: s => .ok (b, s)

/-- Reads a big-endian uint16 (binary.Read). -/
def readU16 : List Nat → Except GoError (Nat × List Nat)
  | b1 :: b0 :: s => .ok (b1 * 256 + b0, s)
  | _ => .error .ioFailure

/-- Reads a big-endian uint32 (binary.Read). -/
def readU32 : List Nat → Except GoError (Nat × List Nat)
  | b3 :: b2 :: b1 :: b0 :: s => .ok (((b3 * 256 + b2) * 256 + b1) * 256 + b0, s)
  | _ => .error .ioFailure

/-- Reads a big-endian uint64 (binary.Read). -/
def readU64 : List Nat → Except GoError (Nat × List Nat)
  | b7 :: b6 :: b5 :: b4 :: b3 :: b2 :: b1 :: b0 :: s =>
      .ok (((((((b7 * 256 + b6) * 256 + b5) * 256 + b4) * 256 + b3) * 256 + b2) * 256
              + b1) * 256 + b0, s)
  | _ => .error .ioFailure

/-- Reads exactly n raw bytes (the in.Read call of readString). -/
def readBytes : Nat → List Nat → Except GoError (List Nat × List Nat)
  | 0, s => .ok ([], s)
  | _ + 1, [] => .error .ioFailure
  | n + 1, b :: s =>
      match readBytes n s with
      | .error e => .error e
      | .ok (bs, rest) => .ok (b :: bs, rest)

/-- Big-endian bytes of a uint16; the modulo is the uint16 conversion. -/
def u16be (n : Nat) : List Nat := [n / 256 % 256, n % 256]

/-- Big-endian bytes of a uint32. -/
def u32be (n : Nat) : List Nat :=
  [n / 16777216 % 256, n / 65536 % 256, n / 256 % 256, n % 256]

/-- Big-endian bytes of a uint64. -/
def u64be (n : Nat) : List Nat :=
  [n / 72057594037927936 % 256, n / 281474976710656 % 256, n / 1099511627776 % 256,
   n / 4294967296 % 256, n / 16777216 % 256, n / 65536 % 256, n / 256 % 256, n % 256]

/-- Bit pattern stored by v.SetInt(int64(int16(value))) into an int32 slot
(decode.go line 171): the low 16 bits of the wire value, sign extended to
32 bits. -/
def sext16to32 (value : Nat) : Nat :=
  let lo := value % 65536
  if lo < 32768 then lo else 4294901760 + lo

/-- readString of decode.go: 2-byte big-endian length, then that many raw
bytes. -/
def readString (s : List Nat) : Except GoError (List Nat × List Nat) :=
  match readU16 s with
  | .error e => .error e
  | .ok (len, s1) => readBytes len s1

/-- readTag of decode.go: one tag byte; tagEnd carries no name, any other
tag is followed by its length-prefixed name.  Returns (name, tag, rest). -/
def readTag (s : List Nat) : Except GoError (List Nat × Nat × List Nat) :=
  match readU8 s with
  | .error e => .error e
  | .ok (tag, s1) =>
      if tag == 0 then .ok ([], tag, s1)
      else
        match readString s1 with
        | .error e => .error e
        | .ok (name, s2) => .ok (name, tag, s2)

mutual

/-- Zero value of a Go type (reflect.New(t).Elem()). -/
def zeroVal : GoType → GoVal
  | .tBool => .vBool false
  | .tInt8 => .vInt8 0
  | .tUint8 => .vUint8 0
  | .tInt16 => .vInt16 0
  | .tUint16 => .vUint16 0
  | .tInt32 => .vInt32 0
  | .tUint32 => .vUint32 0
  | .tInt64 => .vInt64 0
  | .tUint64 => .vUint64 0
  | .tInt => .vBool false
  | .tUint => .vBool false
  | .tFloat32 => .vFloat32 0
  | .tFloat64 => .vFloat64 0
  | .tString => .vString []
  | .tSlice e => .vSlice e []
  | .tArray n e => .vArray e (List.replicate n (zeroVal e))
  | .tStruct fs => .vStruct (zeroFields fs)
  | .tMap => .vMap []
  | .tIface => .vPtr none
  | .tPtr _ => .vPtr none

/-- Zero values of a struct field list. -/
def zeroFields : List (List Nat × GoType) → List (List Nat × GoVal)
  | [] => []
  | (n, t) :: rest => (n, zeroVal t) :: zeroFields rest

end

/-- allocate of decode.go: the canonical Go type and zero value for a tag
when the target is unconstrained; panics (errors) on any other tag. -/
def allocate (tag : Nat) : Except GoError (GoType × GoVal) :=
  match tag with
  | 1 => .ok (.tInt8, .vInt8 0)
  | 2 => .ok (.tInt16, .vInt16 0)
  | 3 => .ok (.tInt32, .vInt32 0)
  | 4 => .ok (.tInt64, .vInt64 0)
  | 5 => .ok (.tFloat32, .vFloat32 0)
  | 6 => .ok (.tFloat64, .vFloat64 0)
  | 7 => .ok (.tSlice .tUint8, .vSlice .tUint8 [])
  | 8 => .ok (.tString, .vString [])
  | 9 => .ok (.tSlice .tIface, .vSlice .tIface [])
  | 10 => .ok (.tMap, .vMap [])
  | 11 => .ok (.tSlice .tInt32, .vSlice .tInt32 [])
  | 12 => .ok (.tSlice .tInt64, .vSlice .tInt64 [])
  | t => .error (.unhandledTag t)

/-- Modelled from the spec: parseStruct (defined in a repository file that
is not under src/) implements the Record Field Resolver, which for a given
wire name supplies the corresponding typed field slot to populate.  The
struct type and value carry their fields as aligned name keyed lists, so
resolution is association list lookup. -/
def lookupField (name : List Nat) :
    List (List Nat × GoType) → List (List Nat × GoVal) → Option (GoType × GoVal)
  | [], _ => none
  | _, [] => none
  | (n, t) :: ts, (_, v) :: vs =>
      if n == name then some (t, v) else lookupField name ts vs

/-- Writes a decoded value back into the named struct field slot (the
reflect.Value returned by the resolver is a mutable reference). -/
def setField (name : List Nat) (x : GoVal) :
    List (List Nat × GoVal) → List (List Nat × GoVal)
  | [] => []
  | (n, v) :: vs => if n == name then (n, x) :: vs else (n, v) :: setField name x vs

/-- v.SetMapIndex(name, val): insert or overwrite, last write wins. -/
def mapSet (entries : List (List Nat × GoVal)) (name : List Nat) (x : GoVal) :
    List (List Nat × GoVal) :=
  match entries with
  | [] => [(name, x)]
  | (n, v) :: rest => if n == name then (n, x) :: rest else (n, v) :: mapSet rest name x

/-- Map lookup, used only to state properties about decoded maps. -/
def mapGet (entries : List (List Nat × GoVal)) (name : List Nat) : Option GoVal :=
  match entries with
  | [] => none
  | (n, v) :: rest => if n == name then some v else mapGet rest name

mutual

/-- readValue of decode.go.  The fuel argument bounds recursion depth (the
compound loops also consume fuel); it has no Go counterpart and a large
enough fuel never runs out.  The first match on the target kind is the
source switch on v.Kind(): platform int and uint are rejected outright, an
interface target is replaced by the canonical allocation for the tag, and a
pointer target is replaced by a freshly allocated pointee.  The second
match dispatches on the tag exactly as the source switch does. -/
def readValue (fuel : Nat) (tag : Nat) (t : GoType) (v : GoVal) (s : List Nat) :
    Except GoError (GoVal × List Nat) :=
  match fuel with
  | 0 => .error .outOfFuel
  | fuel1 + 1 =>
    match t with
    | .tInt => .error .intUintUnsupported
    | .tUint => .error .intUintUnsupported
    | .tIface =>
        match allocate tag with
        | .error e => .error e
        | .ok (t2, v2) => readValue fuel1 tag t2 v2 s
    | .tPtr et =>
        match readValue fuel1 tag et (zeroVal et) s with
        | .error e => .error e
        | .ok (x, s1) => .ok (.vPtr (some x), s1)
    | _ =>
      match tag with
      | 1 => -- tagByte
        match readU8 s with
        | .error e => .error e
        | .ok (value, s1) =>
          match t with
          | .tBool => .ok (.vBool (value != 0), s1)
          | .tInt8 => .ok (.vInt8 value, s1)
          | .tUint8 => .ok (.vUint8 value, s1)
          | _ => .error (.cannotStore 1 t)
      | 2 => -- tagShort
        match readU16 s with
        | .error e => .error e
        | .ok (value, s1) =>
          match t with
          | .tInt16 => .ok (.vInt16 value, s1)
          | .tUint16 => .ok (.vUint16 value, s1)
          | _ => .error (.cannotStore 2 t)
      | 3 => -- tagInt; the Int32 branch is v.SetInt(int64(int16(value)))
        match readU32 s with
        | .error e => .error e
        | .ok (value, s1) =>
          match t with
          | .tInt32 => .ok (.vInt32 (sext16to32 value), s1)
          | .tUint32 => .ok (.vUint32 value, s1)
          | _ => .error (.cannotStore 3 t)
      | 4 => -- tagLong
        match readU64 s with
        | .error e => .error e
        | .ok (value, s1) =>
          match t with
          | .tInt64 => .ok (.vInt64 value, s1)
          | .tUint64 => .ok (.vUint64 value, s1)
          | _ => .error (.cannotStore 4 t)
      | 5 => -- tagFloat
        match readU32 s with
        | .error e => .error e
        | .ok (value, s1) =>
          match t with
          | .tFloat32 => .ok (.vFloat32 value, s1)
          | _ => .error (.cannotStore 5 t)
      | 6 => -- tagDouble
        match readU64 s with
        | .error e => .error e
        | .ok (value, s1) =>
          match t with
          | .tFloat64 => .ok (.vFloat64 value, s1)
          | _ => .error (.cannotStore 6 t)
      | 7 => -- tagByteArray
        match readU32 s with
        | .error e => .error e
        | .ok (len, s1) =>
          match t, v with
          | .tArray k et, .vArray _ items =>
              if k % 4294967296 < len then .error (.capacityExceeded len k)
              else
                match readElems fuel1 1 et items 0 len s1 with
                | .error e => .error e
                | .ok (items1, s2) => .ok (.vArray et items1, s2)
          | .tSlice et, .vSlice _ items =>
              let items := if items.length % 4294967296 < len
                           then List.replicate len (zeroVal et) else items
              match readElems fuel1 1 et items 0 len s1 with
              | .error e => .error e
              | .ok (items1, s2) => .ok (.vSlice et items1, s2)
          | _, _ => .error (.cannotStore 7 t)
      | 8 => -- tagString
        match t with
        | .tString =>
            match readString s with
            | .error e => .error e
            | .ok (str, s1) => .ok (.vString str, s1)
        | _ => .error (.cannotStore 8 t)
      | 9 => -- tagList: element tag byte, uint32 count, then elements
        match readU8 s with
        | .error e => .error e
        | .ok (inner, s1) =>
          match readU32 s1 with
          | .error e => .error e
          | .ok (len, s2) =>
            match t with
            | .tSlice et =>
                match readListElems fuel1 inner et [] 0 len s2 with
                | .error e => .error e
                | .ok (items, s3) => .ok (.vSlice et items, s3)
            | _ => .error (.cannotStore 9 t)
      | 10 => -- tagCompound
        match t, v with
        | .tStruct ft, .vStruct fv => readStructFields fuel1 ft fv [] s
        | .tMap, .vMap m => readMapEntries fuel1 m [] s
        | _, _ => .error (.cannotStore 10 t)
      | 11 => -- tagIntArray
        match readU32 s with
        | .error e => .error e
        | .ok (len, s1) =>
          match t, v with
          | .tArray k et, .vArray _ items =>
              if k % 4294967296 < len then .error (.capacityExceeded len k)
              else
                match readElems fuel1 3 et items 0 len s1 with
                | .error e => .error e
                | .ok (items1, s2) => .ok (.vArray et items1, s2)
          | .tSlice et, .vSlice _ items =>
              let items := if items.length % 4294967296 < len
                           then List.replicate len (zeroVal et) else items
              match readElems fuel1 3 et items 0 len s1 with
              | .error e => .error e
              | .ok (items1, s2) => .ok (.vSlice et items1, s2)
          | _, _ => .error (.cannotStore 11 t)
      | 12 => -- tagLongArray
        match readU32 s with
        | .error e => .error e
        | .ok (len, s1) =>
          match t, v with
          | .tArray k et, .vArray _ items =>
              if k % 4294967296 < len then .error (.capacityExceeded len k)
              else
                match readElems fuel1 4 et items 0 len s1 with
                | .error e => .error e
                | .ok (items1, s2) => .ok (.vArray et items1, s2)
          | .tSlice et, .vSlice _ items =>
              let items := if items.length % 4294967296 < len
                           then List.replicate len (zeroVal et) else items
              match readElems fuel1 4 et items 0 len s1 with
              | .error e => .error e
              | .ok (items1, s2) => .ok (.vSlice et items1, s2)
          | _, _ => .error (.cannotStore 12 t)
      | other => .error (.unhandledTag other)
termination_by structural fuel

/-- Element loop shared by the ByteArray, IntArray and LongArray cases:
for i in 0..count, decode one element into slot i (v.Index(i)).  The slot
list keeps its length; the source has no defer here, so element errors
propagate unwrapped. -/
def readElems (fuel : Nat) (elemTag : Nat) (et : GoType) (items : List GoVal)
    (i : Nat) (rem : Nat) (s : List Nat) : Except GoError (List GoVal × List Nat) :=
  match fuel with
  | 0 => .error .outOfFuel
  | fuel1 + 1 =>
    match rem with
    | 0 => .ok (items, s)
    | rem1 + 1 =>
      match readValue fuel1 elemTag et (items.getD i (.vBool false)) s with
      | .error e => .error e
      | .ok (x, s1) => readElems fuel1 elemTag et (items.set i x) (i + 1) rem1 s1
termination_by structural fuel

/-- Element loop of the tagList case: the target slice is resliced to
length zero and each decoded element is appended; a pointer element type
allocates a fresh pointee, an interface element type allocates the
canonical value for the inner tag, anything else starts from the zero
value.  The deferred recover wraps element errors with the loop index. -/
def readListElems (fuel : Nat) (inner : Nat) (et : GoType) (acc : List GoVal)
    (i : Nat) (rem : Nat) (s : List Nat) : Except GoError (List GoVal × List Nat) :=
  match fuel with
  | 0 => .error .outOfFuel
  | fuel1 + 1 =>
    match rem with
    | 0 => .ok (acc, s)
    | rem1 + 1 =>
      match et with
      | .tPtr pt =>
          match readValue fuel1 inner pt (zeroVal pt) s with
          | .error e => .error (.atListIndex i e)
          | .ok (x, s1) =>
              readListElems fuel1 inner et (acc ++ [.vPtr (some x)]) (i + 1) rem1 s1
      | .tIface =>
          match allocate inner with
          | .error e => .error (.atListIndex i e)
          | .ok (t2, v2) =>
            match readValue fuel1 inner t2 v2 s with
            | .error e => .error (.atListIndex i e)
            | .ok (x, s1) => readListElems fuel1 inner et (acc ++ [x]) (i + 1) rem1 s1
      | _ =>
          match readValue fuel1 inner et (zeroVal et) s with
          | .error e => .error (.atListIndex i e)
          | .ok (x, s1) => readListElems fuel1 inner et (acc ++ [x]) (i + 1) rem1 s1
termination_by structural fuel

/-- Compound-into-struct loop: read (name, tag) pairs until tagEnd; every
name must resolve through the Record Field Resolver or the decode fails
(the source panics with the unhandled tag, and the deferred recover
attaches the field name; a readTag failure is attached to the previous
name, since the loop variable still holds it when the panic unwinds). -/
def readStructFields (fuel : Nat) (ft : List (List Nat × GoType))
    (fv : List (List Nat × GoVal)) (prevName : List Nat) (s : List Nat) :
    Except GoError (GoVal × List Nat) :=
  match fuel with
  | 0 => .error .outOfFuel
  | fuel1 + 1 =>
    match readTag s with
    | .error e => .error (.atStructField prevName e)
    | .ok (name, tag, s1) =>
      if tag == 0 then .ok (.vStruct fv, s1)
      else
        match lookupField name ft fv with
        | none => .error (.atStructField name (.unhandledTag tag))
        | some (t0, v0) =>
          match readValue fuel1 tag t0 v0 s1 with
          | .error e => .error (.atStructField name e)
          | .ok (x, s2) => readStructFields fuel1 ft (setField name x fv) name s2
termination_by structural fuel

/-- Compound-into-map loop: read (name, tag) pairs until tagEnd, allocate
the canonical value for each tag, decode into it and insert it under the
name; a nil map is replaced by a fresh empty one before the loop, which the
association list model absorbs. -/
def readMapEntries (fuel : Nat) (m : List (List Nat × GoVal))
    (prevName : List Nat) (s : List Nat) : Except GoError (GoVal × List Nat) :=
  match fuel with
  | 0 => .error .outOfFuel
  | fuel1 + 1 =>
    match readTag s with
    | .error e => .error (.atStructField prevName e)
    | .ok (name, tag, s1) =>
      if tag == 0 then .ok (.vMap m, s1)
      else
        match allocate tag with
        | .error e => .error (.atStructField name e)
        | .ok (t2, v2) =>
          match readValue fuel1 tag t2 v2 s1 with
          | .error e => .error (.atStructField name e)
          | .ok (x, s2) => readMapEntries fuel1 (mapSet m name x) name s2
termination_by structural fuel

end

/-- Payload bytes written by the tagString branch of writeValue in
encode.go: w(out, uint16(len(s))) then the raw bytes; the uint16 conversion
truncates the length modulo 2 to the 16. -/
def writeString (s : List Nat) : List Nat := u16be s.length ++ s

/-- Byte extracted from a byte-slice element (the source passes the raw
[]byte, whose elements are uint8 bit patterns). -/
def byteOf : GoVal → Nat
  | .vInt8 n => n % 256
  | .vUint8 n => n % 256
  | _ => 0

/-- Bytes written by binary.Write for one scalar value: the width is that
of the value itself (bool and the 8-bit kinds write one byte, 16-bit kinds
two, and so on); binary.Write of any other shape fails. -/
def scalarBytes : GoVal → Except GoError (List Nat)
  | .vBool b => .ok [if b then 1 else 0]
  | .vInt8 n => .ok [n % 256]
  | .vUint8 n => .ok [n % 256]
  | .vInt16 n => .ok (u16be n)
  | .vUint16 n => .ok (u16be n)
  | .vInt32 n => .ok (u32be n)
  | .vUint32 n => .ok (u32be n)
  | .vInt64 n => .ok (u64be n)
  | .vUint64 n => .ok (u64be n)
  | .vFloat32 n => .ok (u32be n)
  | .vFloat64 n => .ok (u64be n)
  | _ => .error .ioFailure

/-- writeValue of encode.go: scalar tags go through binary.Write, tagString
writes the length-prefixed bytes, tagByteArray writes a uint32 count then
the raw bytes, and any other tag panics. -/
def writeValue (tag : Nat) (v : GoVal) : Except GoError (List Nat) :=
  if tag == 1 || tag == 2 || tag == 3 || tag == 4 || tag == 5 || tag == 6 then
    scalarBytes v
  else if tag == 8 then
    match v with
    | .vString s => .ok (writeString s)
    | _ => .error .typeAssertion
  else if tag == 7 then
    match v with
    | .vSlice .tUint8 items => .ok (u32be (items.length % 4294967296) ++ items.map byteOf)
    | _ => .error .typeAssertion
  else .error (.unhandledTag tag)

/-- reflect.Indirect: dereference one pointer level; a nil pointer yields
the invalid Value (none). -/
def indirect : GoVal → Option GoVal
  | .vPtr (some x) => some x
  | .vPtr none => none
  | v => some v

/-- List element tag chosen by writeList from the element type of the
slice, together with the mustConvertBool and mustConvertMap flags. -/
def listElemTag : GoType → Except GoError (Nat × Bool × Bool)
  | .tBool => .ok (1, true, false)
  | .tInt8 => .ok (1, false, false)
  | .tUint8 => .ok (1, false, false)
  | .tInt16 => .ok (2, false, false)
  | .tUint16 => .ok (2, false, false)
  | .tInt32 => .ok (3, false, false)
  | .tUint32 => .ok (3, false, false)
  | .tInt64 => .ok (4, false, false)
  | .tUint64 => .ok (4, false, false)
  | .tFloat32 => .ok (5, false, false)
  | .tFloat64 => .ok (6, false, false)
  | .tString => .ok (8, false, false)
  | .tArray _ sub =>
      match sub with
      | .tUint8 => .ok (7, false, false)
      | .tInt32 => .ok (11, false, false)
      | .tUint32 => .ok (11, false, false)
      | .tInt64 => .ok (12, false, false)
      | .tUint64 => .ok (12, false, false)
      | _ => .error .unhandledArrayType
  | .tSlice _ => .ok (9, false, false)
  | .tMap => .ok (10, false, true)
  | .tStruct _ => .ok (10, false, false)
  | .tPtr _ => .ok (10, false, false)
  | _ => .error .unhandledListElemType

/-- Per-element binary.Write loop used for the IntArray and LongArray
cases (note the source writes no element count for these). -/
def writeScalars (tag : Nat) (items : List GoVal) : Except GoError (List Nat) :=
  match items with
  | [] => .ok []
  | x :: rest =>
      match writeValue tag x with
      | .error e => .error e
      | .ok bs =>
          match writeScalars tag rest with
          | .error e => .error e
          | .ok bs2 => .ok (bs ++ bs2)

mutual

/-- writeTag of encode.go: reflect.Indirect the value, classify its kind,
then emit the tag byte, the length-prefixed name and the payload.  The
deferred recover wraps every error from within with the name (modelled by
the atStructField wrapper around the body).  Fuel bounds recursion depth
and has no Go counterpart. -/
def writeTag (fuel : Nat) (name : List Nat) (v : GoVal) :
    Except GoError (List Nat) :=
  match fuel with
  | 0 => .error .outOfFuel
  | fuel1 + 1 =>
    match
      (match indirect v with
       | none => (.error GoError.unhandledType : Except GoError (List Nat))
       | some w => writeTagVal fuel1 name w) with
    | .error e => .error (.atStructField name e)
    | .ok bs => .ok bs
termination_by structural fuel

/-- Kind dispatch of writeTag (the switch on v.Kind() after Indirect). -/
def writeTagVal (fuel : Nat) (name : List Nat) (v : GoVal) :
    Except GoError (List Nat) :=
  match fuel with
  | 0 => .error .outOfFuel
  | fuel1 + 1 =>
    match v with
    | .vBool b => .ok ([1] ++ writeString name ++ [if b then 1 else 0])
    | .vInt8 n => .ok ([1] ++ writeString name ++ [n % 256])
    | .vUint8 n => .ok ([1] ++ writeString name ++ [n % 256])
    | .vInt16 n => .ok ([2] ++ writeString name ++ u16be n)
    | .vUint16 n => .ok ([2] ++ writeString name ++ u16be n)
    | .vInt32 n => .ok ([3] ++ writeString name ++ u32be n)
    | .vUint32 n => .ok ([3] ++ writeString name ++ u32be n)
    | .vInt64 n => .ok ([4] ++ writeString name ++ u64be n)
    | .vUint64 n => .ok ([4] ++ writeString name ++ u64be n)
    | .vFloat32 n => .ok ([5] ++ writeString name ++ u32be n)
    | .vFloat64 n => .ok ([6] ++ writeString name ++ u64be n)
    | .vString s => .ok ([8] ++ writeString name ++ writeString s)
    | .vArray et items =>
        match et with
        | .tUint8 =>
            .ok ([7] ++ writeString name
                  ++ u32be (items.length % 4294967296) ++ items.map byteOf)
        | .tInt32 =>
            match writeScalars 3 items with
            | .error e => .error e
            | .ok bs => .ok ([11] ++ writeString name ++ bs)
        | .tUint32 =>
            match writeScalars 3 items with
            | .error e => .error e
            | .ok bs => .ok ([11] ++ writeString name ++ bs)
        | .tInt64 =>
            match writeScalars 4 items with
            | .error e => .error e
            | .ok bs => .ok ([12] ++ writeString name ++ bs)
        | .tUint64 =>
            match writeScalars 4 items with
            | .error e => .error e
            | .ok bs => .ok ([12] ++ writeString name ++ bs)
        | _ => .error .unhandledArrayType
    | .vSlice et items =>
        match writeList fuel1 et items with
        | .error e => .error e
        | .ok bs => .ok ([9] ++ writeString name ++ bs)
    | .vMap entries =>
        match writeMap fuel1 entries with
        | .error e => .error e
        | .ok bs => .ok ([10] ++ writeString name ++ bs)
    | .vStruct fields =>
        match writeCompound fuel1 fields with
        | .error e => .error e
        | .ok bs => .ok ([10] ++ writeString name ++ bs)
    | .vPtr _ => .error .unhandledType
termination_by structural fuel

/-- writeList of encode.go: one element tag byte, a uint32 count, then the
payload of every element with no per-element tag or name.  Booleans are
converted to bytes, maps and structs are written as compounds, nested
slices as lists, fixed arrays as the matching array payloads, everything
else through writeValue.  The deferred recover wraps element errors with
the loop index. -/
def writeList (fuel : Nat) (et : GoType) (items : List GoVal) :
    Except GoError (List Nat) :=
  match fuel with
  | 0 => .error .outOfFuel
  | fuel1 + 1 =>
    match listElemTag et with
    | .error e => .error e
    | .ok (tag, convBool, convMap) =>
        match writeListElems fuel1 tag convBool convMap 0 items with
        | .error e => .error e
        | .ok bs => .ok ([tag] ++ u32be (items.length % 4294967296) ++ bs)
termination_by structural fuel

/-- Element loop of writeList. -/
def writeListElems (fuel : Nat) (tag : Nat) (convBool : Bool) (convMap : Bool)
    (i : Nat) (items : List GoVal) : Except GoError (List Nat) :=
  match fuel with
  | 0 => .error .outOfFuel
  | fuel1 + 1 =>
    match items with
    | [] => .ok []
    | x :: rest =>
      match
        (if convBool then
          match x with
          | .vBool b => .ok [if b then (1 : Nat) else 0]
          | _ => .error GoError.typeAssertion
        else if tag == 10 then
          if convMap then
            match x with
            | .vMap entries => writeMap fuel1 entries
            | _ => .error GoError.typeAssertion
          else
            match indirect x with
            | some (.vStruct fields) => writeCompound fuel1 fields
            | _ => .error GoError.typeAssertion
        else if tag == 9 then
          match x with
          | .vSlice et2 items2 => writeList fuel1 et2 items2
          | _ => .error GoError.typeAssertion
        else if tag == 7 then
          match x with
          | .vArray _ bytes =>
              writeValue 7 (.vSlice .tUint8 bytes)
          | _ => .error GoError.typeAssertion
        else if tag == 11 then
          match x with
          | .vArray _ subs => writeScalars 3 subs
          | _ => .error GoError.typeAssertion
        else if tag == 12 then
          match x with
          | .vArray _ subs => writeScalars 4 subs
          | _ => .error GoError.typeAssertion
        else writeValue tag x) with
      | .error e => .error (.atListIndex i e)
      | .ok bs =>
          match writeListElems fuel1 tag convBool convMap (i + 1) rest with
          | .error e => .error e
          | .ok bs2 => .ok (bs ++ bs2)
termination_by structural fuel

/-- writeMap of encode.go: a full named tag for every entry, then one End
byte. -/
def writeMap (fuel : Nat) (entries : List (List Nat × GoVal)) :
    Except GoError (List Nat) :=
  match fuel with
  | 0 => .error .outOfFuel
  | fuel1 + 1 =>
    match entries with
    | [] => .ok [0]
    | (k, x) :: rest =>
        match writeTag fuel1 k (.vPtr (some x)) with
        | .error e => .error e
        | .ok bs =>
            match writeMap fuel1 rest with
            | .error e => .error e
            | .ok bs2 => .ok (bs ++ bs2)
termination_by structural fuel

/-- writeCompound of encode.go: a full named tag for every resolved struct
field (the Record Field Resolver, parseStruct, supplies the fields that the
vStruct model carries directly), then one End byte. -/
def writeCompound (fuel : Nat) (fields : List (List Nat × GoVal)) :
    Except GoError (List Nat) :=
  match fuel with
  | 0 => .error .outOfFuel
  | fuel1 + 1 =>
    match fields with
    | [] => .ok [0]
    | (k, x) :: rest =>
        match writeTag fuel1 k x with
        | .error e => .error e
        | .ok bs =>
            match writeCompound fuel1 rest with
            | .error e => .error e
            | .ok bs2 => .ok (bs ++ bs2)
termination_by structural fuel

end

mutual

/-- Number of nodes of a value, used only to budget encoder fuel. -/
def valSize : GoVal → Nat
  | .vSlice _ items => 1 + itemsSize items
  | .vArray _ items => 1 + itemsSize items
  | .vStruct fs => 1 + pairsSize fs
  | .vMap es => 1 + pairsSize es
  | .vPtr (some x) => 1 + valSize x
  | _ => 1

/-- Node count of an element list. -/
def itemsSize : List GoVal → Nat
  | [] => 0
  | x :: rest => 1 + valSize x + itemsSize rest

/-- Node count of a name keyed pair list. -/
def pairsSize : List (List Nat × GoVal) → Nat
  | [] => 0
  | (_, x) :: rest => 1 + valSize x + pairsSize rest

end

/-- Fuel large enough for any actual traversal of v: every recursive call
of the encoder strictly decreases fuel, and along any call path at most a
small constant number of calls happen per node of v. -/
def encodeFuel (v : GoVal) : Nat := 4 * valSize v + 16

/-- writeRootTag of encode.go: the root tag carries an empty name. -/
def writeRootTag (v : GoVal) : Except GoError (List Nat) :=
  writeTag (encodeFuel v) [] v

/-- Marshal of encode.go.  The output stream is external state, modelled
only by presence (some) or absence (none); the gzip and zlib compressors
are external collaborators, modelled as the byte transformers gz and zl
applied to everything the Encoder writes.  Returns the bytes that reach
the underlying stream, or the recovered panic. -/
def Marshal (gz zl : List Nat → List Nat) (compression : Nat)
    (out : Option Unit) (v : GoVal) : Except GoError (List Nat) :=
  match out with
  | none => .error .nilStream
  | some _ =>
      if compression == 0 then writeRootTag v
      else if compression == 1 then
        match writeRootTag v with
        | .error e => .error e
        | .ok bs => .ok (gz bs)
      else if compression == 2 then
        match writeRootTag v with
        | .error e => .error e
        | .ok bs => .ok (zl bs)
      else .error (.unknownCompression compression)

/-- Fuel for one decode over a stream: each unit of decoder fuel that is
consumed either enters a payload (whose header bytes were already read) or
reads at least one byte, so the stream length dominates the requirement. -/
def decodeFuel (s : List Nat) : Nat := s.length + 16

/-- unmarshal of decode.go: read the root tag header, then decode the
payload into the target. -/
def unmarshal (t : GoType) (v : GoVal) (s : List Nat) : Except GoError GoVal :=
  match readTag s with
  | .error e => .error e
  | .ok (_, tag, s1) =>
      match readValue (decodeFuel s) tag t v s1 with
      | .error e => .error e
      | .ok (x, _) => .ok x

/-- Unmarshal of decode.go.  The input stream is modelled as the byte list
it will yield; gunzip and zunzip model the external gzip and zlib
decompressors, which may themselves fail on bad framing. -/
def Unmarshal (gunzip zunzip : List Nat → Except GoError (List Nat))
    (compression : Nat) (inp : Option (List Nat)) (t : GoType) (v : GoVal) :
    Except GoError GoVal :=
  match inp with
  | none => .error .nilStream
  | some s =>
      if compression == 0 then unmarshal t v s
      else if compression == 1 then
        match gunzip s with
        | .error e => .error e
        | .ok s2 => unmarshal t v s2
      else if compression == 2 then
        match zunzip s with
        | .error e => .error e
        | .ok s2 => unmarshal t v s2
      else .error (.unknownCompression compression)

theorem readU16_u16be (n : Nat) (h : n < 65536) (s : List Nat) :
    readU16 (u16be n ++ s) = .ok (n, s) := by
  have : n / 256 % 256 * 256 + n % 256 = n := by omega
  simp [u16be, readU16, this]

theorem readU32_u32be (n : Nat) (h : n < 4294967296) (s : List Nat) :
    readU32 (u32be n ++ s) = .ok (n, s) := by
  have : ((n / 16777216 % 256 * 256 + n / 65536 % 256) * 256 + n / 256 % 256) * 256
      + n % 256 = n := by omega
  simp [u32be, readU32, this]

theorem readBytes_append (xs s : List Nat) :
    readBytes xs.length (xs ++ s) = .ok (xs, s) := by
  induction xs with
  | nil => rfl
  | cons b rest ih => simp [readBytes, ih]

theorem readString_append (xs s : List Nat) (h : xs.length < 65536) :
    readString (u16be xs.length ++ (xs ++ s)) = .ok (xs, s) := by
  have h2 : readU16 (u16be xs.length ++ (xs ++ s)) = .ok (xs.length, xs ++ s) :=
    readU16_u16be xs.length h (xs ++ s)
  simp [readString, h2, readBytes_append]

theorem readTag_cons (tag : Nat) (h0 : tag ≠ 0) (name s : List Nat)
    (h : name.length < 65536) :
    readTag (tag :: (u16be name.length ++ (name ++ s))) = .ok (name, tag, s) := by
  have hb : (tag == 0) = false := beq_eq_false_iff_ne.mpr h0
  simp [readTag, readU8, hb, readString_append name s h]

theorem mapGet_mapSet (m : List (List Nat × GoVal)) (name : List Nat) (x : GoVal) :
    mapGet (mapSet m name x) name = some x := by
  induction m with
  | nil => simp [mapSet, mapGet]
  | cons p rest ih =>
      obtain ⟨n, v⟩ := p
      by_cases h : (n == name) = true
      · simp [mapSet, mapGet, h]
      · simp [mapSet, mapGet, h, ih]

/-- C1: the claim states that decoding a tagInt payload in typed mode into
a signed 32-bit target assigns the 32-bit big-endian wire value directly,
with no truncation.  The code (decode.go line 171, SetInt(int64(int16(value))))
instead reinterprets the value through a 16-bit signed cast: at the wire
value 65536, whose big-endian bytes are 0x00 0x01 0x00 0x00, the decoder
stores 0 in the int32 target, not 65536. -/
theorem tagInt_int32_truncates_through_int16 :
    readU32 [0, 1, 0, 0] = .ok (65536, []) ∧
    readValue 9 3 GoType.tInt32 (GoVal.vInt32 0) [0, 1, 0, 0]
      = .ok (GoVal.vInt32 0, []) ∧
    (65536 : Nat) ≠ 0 :=
  ⟨rfl, rfl, by decide⟩

/-- C9: decoding a tagInt payload in typed mode into an unsigned 32-bit
target preserves the full 32-bit big-endian wire value exactly, for every
wire value, with no narrowing cast (decode.go line 173,
SetUint(uint64(value))). -/
theorem tagInt_uint32_preserves_value (fuel w : Nat) (v : GoVal) (rest : List Nat)
    (h : w < 4294967296) :
    readValue (fuel + 1) 3 GoType.tUint32 v (u32be w ++ rest)
      = .ok (.vUint32 w, rest) := by
  have h4 : readU32 (u32be w ++ rest) = .ok (w, rest) := readU32_u32be w h rest
  simp [readValue, h4]

/-- Witness for C9 at the wire value 3000000000, which exceeds both the
16-bit and the signed 32-bit range. -/
theorem tagInt_uint32_preserves_value_witness :
    (3000000000 : Nat) < 4294967296 ∧
    readValue 1 3 GoType.tUint32 (GoVal.vUint32 0) (u32be 3000000000 ++ [])
      = .ok (.vUint32 3000000000, []) :=
  ⟨by decide, tagInt_uint32_preserves_value 0 3000000000 (.vUint32 0) [] (by decide)⟩

/-- C10: a decode target slot of the platform-width Go kinds int or uint is
rejected before the tag is even examined, for every tag, target value and
stream; the corresponding panic message is "nbt: int and uint types are
not supported for portability reasons. Try int32 or uint32."
(decode.go lines 128 to 130). -/
theorem int_uint_kind_rejected (fuel tag : Nat) (v : GoVal) (s : List Nat) :
    readValue (fuel + 1) tag GoType.tInt v s = .error .intUintUnsupported ∧
    readValue (fuel + 1) tag GoType.tUint v s = .error .intUintUnsupported :=
  ⟨rfl, rfl⟩

/-- C4: decoding a ByteArray whose wire count n exceeds the length k of a
fixed array target fails with the capacity error carrying both counts,
before reading or storing any element, for every such n and k
(decode.go lines 216 to 219). -/
theorem byteArray_capacity_exceeded (fuel n k : Nat) (et : GoType)
    (items : List GoVal) (s : List Nat) (hn : n < 4294967296) (hk : k < n) :
    readValue (fuel + 1) 7 (GoType.tArray k et) (GoVal.vArray et items)
        (u32be n ++ s)
      = .error (.capacityExceeded n k) := by
  have h4 : readU32 (u32be n ++ s) = .ok (n, s) := readU32_u32be n hn s
  have hif : k % 4294967296 < n := by omega
  simp [readValue, h4, hif]

/-- Witness for C4: wire count 5 into a fixed length-3 array. -/
theorem byteArray_capacity_exceeded_witness :
    (5 : Nat) < 4294967296 ∧ (3 : Nat) < 5 ∧
    readValue 9 7 (GoType.tArray 3 GoType.tUint8)
        (GoVal.vArray .tUint8 [.vUint8 0, .vUint8 0, .vUint8 0])
        (u32be 5 ++ [1, 2, 3, 4, 5])
      = .error (.capacityExceeded 5 3) :=
  ⟨by decide, by decide,
   byteArray_capacity_exceeded 8 5 3 .tUint8 [.vUint8 0, .vUint8 0, .vUint8 0]
     [1, 2, 3, 4, 5] (by decide) (by decide)⟩

/-- C8: Marshal fails with nilStream whenever the output stream is absent,
for every compression mode and value, and fails with the unknown
compression error whenever the mode is none of Uncompressed, GZip and ZLib
on a present stream; in both cases the error is returned (the recovered
panic) and no bytes reach the stream (encode.go lines 23 to 40). -/
theorem marshal_nil_and_bad_compression :
    (∀ (gz zl : List Nat → List Nat) (c : Nat) (v : GoVal),
        Marshal gz zl c none v = .error .nilStream) ∧
    (∀ (gz zl : List Nat → List Nat) (c : Nat) (v : GoVal), 2 < c →
        Marshal gz zl c (some ()) v = .error (.unknownCompression c)) := by
  refine ⟨fun gz zl c v => rfl, fun gz zl c v hc => ?_⟩
  have h0 : (c == 0) = false := beq_eq_false_iff_ne.mpr (by omega)
  have h1 : (c == 1) = false := beq_eq_false_iff_ne.mpr (by omega)
  have h2 : (c == 2) = false := beq_eq_false_iff_ne.mpr (by omega)
  simp [Marshal, h0, h1, h2]

/-- Witness for C8 at compression mode 7. -/
theorem marshal_nil_and_bad_compression_witness :
    (2 : Nat) < 7 ∧
    Marshal id id 7 (some ()) (.vBool false) = .error (.unknownCompression 7) ∧
    Marshal id id 7 none (.vBool false) = .error .nilStream :=
  ⟨by decide,
   marshal_nil_and_bad_compression.2 id id 7 (.vBool false) (by decide),
   marshal_nil_and_bad_compression.1 id id 7 (.vBool false)⟩

/-- Effect of the ByteArray element loop on the target slots: payload byte
j is stored as a uint8 element at index i + j. -/
def writeBytesInto (vals : List GoVal) (i : Nat) : List Nat → List GoVal
  | [] => vals
  | b :: bs => writeBytesInto (vals.set i (.vUint8 b)) (i + 1) bs

theorem writeBytesInto_length (payload : List Nat) :
    ∀ (vals : List GoVal) (i : Nat),
      (writeBytesInto vals i payload).length = vals.length := by
  induction payload with
  | nil => intro vals i; rfl
  | cons b bs ih => intro vals i; simp [writeBytesInto, ih]

theorem readElems_bytes (payload : List Nat) :
    ∀ (fuel i : Nat) (vals : List GoVal) (rest : List Nat),
      payload.length + 1 ≤ fuel →
      readElems fuel 1 .tUint8 vals i payload.length (payload ++ rest)
        = .ok (writeBytesInto vals i payload, rest) := by
  induction payload with
  | nil =>
      intro fuel i vals rest hf
      obtain ⟨f, rfl⟩ : ∃ f, fuel = f + 1 := ⟨fuel - 1, by omega⟩
      rfl
  | cons b bs ih =>
      intro fuel i vals rest hf
      obtain ⟨f, rfl⟩ : ∃ f, fuel = f + 1 := ⟨fuel - 1, by omega⟩
      obtain ⟨f2, rfl⟩ : ∃ f2, f = f2 + 1 := ⟨f - 1, by simp at hf; omega⟩
      have hr := ih (f2 + 1) (i + 1) (vals.set i (.vUint8 b)) rest (by simp at hf; omega)
      have step : readElems (f2 + 1 + 1) 1 .tUint8 vals i (b :: bs).length
            ((b :: bs) ++ rest)
          = readElems (f2 + 1) 1 .tUint8 (vals.set i (.vUint8 b)) (i + 1) bs.length
              (bs ++ rest) := rfl
      rw [step, hr]
      rfl

/-- Final slot list of a ByteArray decode of count n into a slice whose
current length is the length of old: a shorter slice is replaced by a
fresh zeroed slice of length n before the loop, a longer one is kept. -/
def byteArraySliceResult (old : List GoVal) (payload : List Nat) : List GoVal :=
  if old.length < payload.length
  then writeBytesInto (List.replicate payload.length (zeroVal .tUint8)) 0 payload
  else writeBytesInto old 0 payload

/-- C3 counterexample: the claim states the target slice always has length
exactly the wire count n afterwards, shrinking if needed.  Decoding a
ByteArray of wire count 1 into a slice of prior length 2 succeeds and
leaves length 2: the source only grows a slice that is too short
(decode.go lines 220 to 224) and never shrinks a longer one. -/
theorem byteArray_slice_not_shrunk_cex :
    readValue 9 7 (GoType.tSlice .tUint8)
        (GoVal.vSlice .tUint8 [.vUint8 7, .vUint8 8]) (u32be 1 ++ [5])
      = .ok (.vSlice .tUint8 [.vUint8 5, .vUint8 8], []) ∧
    ([GoVal.vUint8 5, GoVal.vUint8 8] : List GoVal).length = 2 ∧ (2 : Nat) ≠ 1 :=
  ⟨rfl, rfl, by decide⟩

/-- Concatenated big-endian wire payload of a sequence of 32-bit words,
as an IntArray payload carries it. -/
def u32concat : List Nat → List Nat
  | [] => []
  | w :: ws => u32be w ++ u32concat ws

/-- Concatenated big-endian wire payload of a sequence of 64-bit words,
as a LongArray payload carries it. -/
def u64concat : List Nat → List Nat
  | [] => []
  | w :: ws => u64be w ++ u64concat ws

/-- Effect of the IntArray element loop on the target slots: wire word j
is stored at index i + j as the int32 the tagInt decode path produces
(which runs every word through the 16-bit cast, see claim C1). -/
def writeInt32Into (vals : List GoVal) (i : Nat) : List Nat → List GoVal
  | [] => vals
  | w :: ws => writeInt32Into (vals.set i (.vInt32 (sext16to32 w))) (i + 1) ws

/-- Effect of the LongArray element loop on the target slots. -/
def writeInt64Into (vals : List GoVal) (i : Nat) : List Nat → List GoVal
  | [] => vals
  | w :: ws => writeInt64Into (vals.set i (.vInt64 w)) (i + 1) ws

theorem writeInt32Into_length (ws : List Nat) :
    ∀ (vals : List GoVal) (i : Nat),
      (writeInt32Into vals i ws).length = vals.length := by
  induction ws with
  | nil => intro vals i; rfl
  | cons w ws ih => intro vals i; simp [writeInt32Into, ih]

theorem writeInt64Into_length (ws : List Nat) :
    ∀ (vals : List GoVal) (i : Nat),
      (writeInt64Into vals i ws).length = vals.length := by
  induction ws with
  | nil => intro vals i; rfl
  | cons w ws ih => intro vals i; simp [writeInt64Into, ih]

theorem readU64_u64be (n : Nat) (h : n < 18446744073709551616) (s : List Nat) :
    readU64 (u64be n ++ s) = .ok (n, s) := by
  have : ((((((n / 72057594037927936 % 256 * 256 + n / 281474976710656 % 256) * 256
      + n / 1099511627776 % 256) * 256 + n / 4294967296 % 256) * 256
      + n / 16777216 % 256) * 256 + n / 65536 % 256) * 256 + n / 256 % 256) * 256
      + n % 256 = n := by omega
  simp [u64be, readU64, this]

theorem readValue_int32_elem (fuel w : Nat) (v : GoVal) (rest : List Nat)
    (h : w < 4294967296) :
    readValue (fuel + 1) 3 GoType.tInt32 v (u32be w ++ rest)
      = .ok (.vInt32 (sext16to32 w), rest) := by
  have h4 : readU32 (u32be w ++ rest) = .ok (w, rest) := readU32_u32be w h rest
  simp [readValue, h4]

theorem readValue_int64_elem (fuel w : Nat) (v : GoVal) (rest : List Nat)
    (h : w < 18446744073709551616) :
    readValue (fuel + 1) 4 GoType.tInt64 v (u64be w ++ rest)
      = .ok (.vInt64 w, rest) := by
  have h8 : readU64 (u64be w ++ rest) = .ok (w, rest) := readU64_u64be w h rest
  simp [readValue, h8]

theorem readElems_int32 (ws : List Nat) :
    ∀ (fuel i : Nat) (vals : List GoVal) (rest : List Nat),
      (∀ w ∈ ws, w < 4294967296) → ws.length + 1 ≤ fuel →
      readElems fuel 3 .tInt32 vals i ws.length (u32concat ws ++ rest)
        = .ok (writeInt32Into vals i ws, rest) := by
  induction ws with
  | nil =>
      intro fuel i vals rest _ hf
      obtain ⟨f, rfl⟩ : ∃ f, fuel = f + 1 := ⟨fuel - 1, by omega⟩
      rfl
  | cons w ws ih =>
      intro fuel i vals rest hw hf
      obtain ⟨f, rfl⟩ : ∃ f, fuel = f + 1 := ⟨fuel - 1, by omega⟩
      obtain ⟨f2, rfl⟩ : ∃ f2, f = f2 + 1 := ⟨f - 1, by simp at hf; omega⟩
      have hr := ih (f2 + 1) (i + 1) (vals.set i (.vInt32 (sext16to32 w))) rest
        (fun x hx => hw x (List.mem_cons_of_mem w hx)) (by simp at hf; omega)
      have hstep := readValue_int32_elem f2 w (vals.getD i (.vBool false))
        (u32concat ws ++ rest) (hw w (List.mem_cons_self w ws))
      show readElems (f2 + 1 + 1) 3 .tInt32 vals i (ws.length + 1)
          (u32be w ++ (u32concat ws ++ rest))
        = .ok (writeInt32Into vals i (w :: ws), rest)
      have step : readElems (f2 + 1 + 1) 3 .tInt32 vals i (ws.length + 1)
            (u32be w ++ (u32concat ws ++ rest))
          = match readValue (f2 + 1) 3 .tInt32 (vals.getD i (.vBool false))
              (u32be w ++ (u32concat ws ++ rest)) with
            | .error e => .error e
            | .ok (x, s1) =>
                readElems (f2 + 1) 3 .tInt32 (vals.set i x) (i + 1) ws.length s1 := rfl
      rw [step, hstep]
      exact hr

theorem readElems_int64 (ws : List Nat) :
    ∀ (fuel i : Nat) (vals : List GoVal) (rest : List Nat),
      (∀ w ∈ ws, w < 18446744073709551616) → ws.length + 1 ≤ fuel →
      readElems fuel 4 .tInt64 vals i ws.length (u64concat ws ++ rest)
        = .ok (writeInt64Into vals i ws, rest) := by
  induction ws with
  | nil =>
      intro fuel i vals rest _ hf
      obtain ⟨f, rfl⟩ : ∃ f, fuel = f + 1 := ⟨fuel - 1, by omega⟩
      rfl
  | cons w ws ih =>
      intro fuel i vals rest hw hf
      obtain ⟨f, rfl⟩ : ∃ f, fuel = f + 1 := ⟨fuel - 1, by omega⟩
      obtain ⟨f2, rfl⟩ : ∃ f2, f = f2 + 1 := ⟨f - 1, by simp at hf; omega⟩
      have hr := ih (f2 + 1) (i + 1) (vals.set i (.vInt64 w)) rest
        (fun x hx => hw x (List.mem_cons_of_mem w hx)) (by simp at hf; omega)
      have hstep := readValue_int64_elem f2 w (vals.getD i (.vBool false))
        (u64concat ws ++ rest) (hw w (List.mem_cons_self w ws))
      show readElems (f2 + 1 + 1) 4 .tInt64 vals i (ws.length + 1)
          (u64be w ++ (u64concat ws ++ rest))
        = .ok (writeInt64Into vals i (w :: ws), rest)
      have step : readElems (f2 + 1 + 1) 4 .tInt64 vals i (ws.length + 1)
            (u64be w ++ (u64concat ws ++ rest))
          = match readValue (f2 + 1) 4 .tInt64 (vals.getD i (.vBool false))
              (u64be w ++ (u64concat ws ++ rest)) with
            | .error e => .error e
            | .ok (x, s1) =>
                readElems (f2 + 1) 4 .tInt64 (vals.set i x) (i + 1) ws.length s1 := rfl
      rw [step, hstep]
      exact hr

/-- Final slot list of an IntArray decode of count n into a slice whose
current length is the length of old: a shorter slice is replaced by a
fresh zeroed slice of length n before the loop, a longer one is kept. -/
def intArraySliceResult (old : List GoVal) (ws : List Nat) : List GoVal :=
  if old.length < ws.length
  then writeInt32Into (List.replicate ws.length (zeroVal .tInt32)) 0 ws
  else writeInt32Into old 0 ws

/-- Final slot list of a LongArray decode, analogous. -/
def longArraySliceResult (old : List GoVal) (ws : List Nat) : List GoVal :=
  if old.length < ws.length
  then writeInt64Into (List.replicate ws.length (zeroVal .tInt64)) 0 ws
  else writeInt64Into old 0 ws

/-- C3 amended: after a successful ByteArray, IntArray or LongArray decode
of wire count n into a growable slice target, the target length is
max n (prior length): exactly n whenever the prior length is at most n
(in particular for a fresh or shorter slice), while a pre-existing longer
slice keeps its prior length with its first n elements overwritten.  The
three conjuncts cover the three array tags (7, 11 and 12), each into the
slice type its wire counterpart carries. -/
theorem array_tags_slice_length_max (fuel : Nat) :
    (∀ (old : List GoVal) (payload rest : List Nat),
      payload.length + 2 ≤ fuel → payload.length < 4294967296 →
      old.length < 4294967296 →
      readValue fuel 7 (GoType.tSlice .tUint8) (GoVal.vSlice .tUint8 old)
          (u32be payload.length ++ (payload ++ rest))
        = .ok (.vSlice .tUint8 (byteArraySliceResult old payload), rest) ∧
      (byteArraySliceResult old payload).length = max payload.length old.length) ∧
    (∀ (old : List GoVal) (ws rest : List Nat),
      ws.length + 2 ≤ fuel → ws.length < 4294967296 → old.length < 4294967296 →
      (∀ w ∈ ws, w < 4294967296) →
      readValue fuel 11 (GoType.tSlice .tInt32) (GoVal.vSlice .tInt32 old)
          (u32be ws.length ++ (u32concat ws ++ rest))
        = .ok (.vSlice .tInt32 (intArraySliceResult old ws), rest) ∧
      (intArraySliceResult old ws).length = max ws.length old.length) ∧
    (∀ (old : List GoVal) (ws rest : List Nat),
      ws.length + 2 ≤ fuel → ws.length < 4294967296 → old.length < 4294967296 →
      (∀ w ∈ ws, w < 18446744073709551616) →
      readValue fuel 12 (GoType.tSlice .tInt64) (GoVal.vSlice .tInt64 old)
          (u32be ws.length ++ (u64concat ws ++ rest))
        = .ok (.vSlice .tInt64 (longArraySliceResult old ws), rest) ∧
      (longArraySliceResult old ws).length = max ws.length old.length) := by
  refine ⟨?_, ?_, ?_⟩
  · intro old payload rest hf hlen hold
    obtain ⟨f, rfl⟩ : ∃ f, fuel = f + 1 := ⟨fuel - 1, by omega⟩
    have h4 : readU32 (u32be payload.length ++ (payload ++ rest))
        = .ok (payload.length, payload ++ rest) :=
      readU32_u32be payload.length hlen (payload ++ rest)
    have hmod : old.length % 4294967296 = old.length := Nat.mod_eq_of_lt hold
    constructor
    · by_cases hcmp : old.length < payload.length
      · have hr := readElems_bytes payload f 0
          (List.replicate payload.length (zeroVal .tUint8)) rest (by omega)
        simp [readValue, h4, hmod, hcmp, byteArraySliceResult, hr]
      · have hr := readElems_bytes payload f 0 old rest (by omega)
        simp [readValue, h4, hmod, hcmp, byteArraySliceResult, hr]
    · by_cases hcmp : old.length < payload.length
      · simp [byteArraySliceResult, hcmp, writeBytesInto_length]
        omega
      · simp [byteArraySliceResult, hcmp, writeBytesInto_length]
        omega
  · intro old ws rest hf hlen hold hw
    obtain ⟨f, rfl⟩ : ∃ f, fuel = f + 1 := ⟨fuel - 1, by omega⟩
    have h4 : readU32 (u32be ws.length ++ (u32concat ws ++ rest))
        = .ok (ws.length, u32concat ws ++ rest) :=
      readU32_u32be ws.length hlen (u32concat ws ++ rest)
    have hmod : old.length % 4294967296 = old.length := Nat.mod_eq_of_lt hold
    constructor
    · by_cases hcmp : old.length < ws.length
      · have hr := readElems_int32 ws f 0
          (List.replicate ws.length (zeroVal .tInt32)) rest hw (by omega)
        simp [readValue, h4, hmod, hcmp, intArraySliceResult, hr]
      · have hr := readElems_int32 ws f 0 old rest hw (by omega)
        simp [readValue, h4, hmod, hcmp, intArraySliceResult, hr]
    · by_cases hcmp : old.length < ws.length
      · simp [intArraySliceResult, hcmp, writeInt32Into_length]
        omega
      · simp [intArraySliceResult, hcmp, writeInt32Into_length]
        omega
  · intro old ws rest hf hlen hold hw
    obtain ⟨f, rfl⟩ : ∃ f, fuel = f + 1 := ⟨fuel - 1, by omega⟩
    have h4 : readU32 (u32be ws.length ++ (u64concat ws ++ rest))
        = .ok (ws.length, u64concat ws ++ rest) :=
      readU32_u32be ws.length hlen (u64concat ws ++ rest)
    have hmod : old.length % 4294967296 = old.length := Nat.mod_eq_of_lt hold
    constructor
    · by_cases hcmp : old.length < ws.length
      · have hr := readElems_int64 ws f 0
          (List.replicate ws.length (zeroVal .tInt64)) rest hw (by omega)
        simp [readValue, h4, hmod, hcmp, longArraySliceResult, hr]
      · have hr := readElems_int64 ws f 0 old rest hw (by omega)
        simp [readValue, h4, hmod, hcmp, longArraySliceResult, hr]
    · by_cases hcmp : old.length < ws.length
      · simp [longArraySliceResult, hcmp, writeInt64Into_length]
        omega
      · simp [longArraySliceResult, hcmp, writeInt64Into_length]
        omega

/-- Witness for C3 amended: ByteArray count 3 into prior length 1 gives
length 3, IntArray count 2 into prior length 1 gives length 2, and
LongArray count 1 into prior length 2 keeps length 2. -/
theorem array_tags_slice_length_max_witness :
    (([1, 2, 3] : List Nat).length + 2 ≤ 5 ∧
     (readValue 5 7 (GoType.tSlice .tUint8) (GoVal.vSlice .tUint8 [.vUint8 9])
          (u32be 3 ++ ([1, 2, 3] ++ []))
        = .ok (.vSlice .tUint8 (byteArraySliceResult [.vUint8 9] [1, 2, 3]), []) ∧
      (byteArraySliceResult [.vUint8 9] [1, 2, 3]).length = max 3 1)) ∧
    (readValue 5 11 (GoType.tSlice .tInt32) (GoVal.vSlice .tInt32 [.vInt32 9])
          (u32be 2 ++ (u32concat [1, 2] ++ []))
        = .ok (.vSlice .tInt32 (intArraySliceResult [.vInt32 9] [1, 2]), []) ∧
      (intArraySliceResult [.vInt32 9] [1, 2]).length = max 2 1) ∧
    (readValue 5 12 (GoType.tSlice .tInt64)
          (GoVal.vSlice .tInt64 [.vInt64 1, .vInt64 2])
          (u32be 1 ++ (u64concat [7] ++ []))
        = .ok (.vSlice .tInt64
            (longArraySliceResult [.vInt64 1, .vInt64 2] [7]), []) ∧
      (longArraySliceResult [.vInt64 1, .vInt64 2] [7]).length = max 1 2) :=
  ⟨⟨by decide,
    (array_tags_slice_length_max 5).1 [.vUint8 9] [1, 2, 3] [] (by decide)
      (by decide) (by decide)⟩,
   (array_tags_slice_length_max 5).2.1 [.vInt32 9] [1, 2] [] (by decide)
      (by decide) (by decide) (by decide),
   (array_tags_slice_length_max 5).2.2 [.vInt64 1, .vInt64 2] [7] [] (by decide)
      (by decide) (by decide) (by decide)⟩

/-- C5: decoding a Compound holding one entry whose name the record target
does not declare fails, and the surfaced error identifies that field name
(the unresolved-name panic wrapped by the deferred recover with the name),
while decoding the same bytes into a dynamic map target succeeds and the
resulting map holds that name bound to the decoded value.  The entry here
is a tagByte named name with payload byte b, followed by the End tag. -/
theorem compound_strict_struct_permissive_map (fuel : Nat) (name : List Nat)
    (b : Nat) (ft : List (List Nat × GoType)) (fv : List (List Nat × GoVal))
    (m : List (List Nat × GoVal)) (rest : List Nat)
    (hname : name.length < 65536) (hmiss : lookupField name ft fv = none) :
    readValue (fuel + 3) 10 (GoType.tStruct ft) (GoVal.vStruct fv)
        (1 :: (u16be name.length ++ (name ++ (b :: 0 :: rest))))
      = .error (.atStructField name (.unhandledTag 1)) ∧
    readValue (fuel + 3) 10 GoType.tMap (GoVal.vMap m)
        (1 :: (u16be name.length ++ (name ++ (b :: 0 :: rest))))
      = .ok (.vMap (mapSet m name (.vInt8 b)), rest) ∧
    mapGet (mapSet m name (.vInt8 b)) name = some (.vInt8 b) := by
  have htag : readTag (1 :: (u16be name.length ++ (name ++ (b :: 0 :: rest))))
      = .ok (name, 1, b :: 0 :: rest) :=
    readTag_cons 1 (by decide) name (b :: 0 :: rest) hname
  refine ⟨?_, ?_, mapGet_mapSet m name (.vInt8 b)⟩
  · have step1 : readValue (fuel + 3) 10 (GoType.tStruct ft) (GoVal.vStruct fv)
        (1 :: (u16be name.length ++ (name ++ (b :: 0 :: rest))))
        = readStructFields (fuel + 2) ft fv []
            (1 :: (u16be name.length ++ (name ++ (b :: 0 :: rest)))) := rfl
    rw [step1, readStructFields.eq_def, htag]
    simp [hmiss]
  · have step1 : readValue (fuel + 3) 10 GoType.tMap (GoVal.vMap m)
        (1 :: (u16be name.length ++ (name ++ (b :: 0 :: rest))))
        = readMapEntries (fuel + 2) m []
            (1 :: (u16be name.length ++ (name ++ (b :: 0 :: rest)))) := rfl
    rw [step1, readMapEntries.eq_def, htag]
    rfl

/-- Witness for C5: the name is the single byte 0x78, the record target
declares no fields, the map target starts empty. -/
theorem compound_strict_struct_permissive_map_witness :
    ([120] : List Nat).length < 65536 ∧
    (readValue 3 10 (GoType.tStruct []) (GoVal.vStruct [])
        (1 :: (u16be 1 ++ ([120] ++ (7 :: 0 :: []))))
      = .error (.atStructField [120] (.unhandledTag 1)) ∧
     readValue 3 10 GoType.tMap (GoVal.vMap [])
        (1 :: (u16be 1 ++ ([120] ++ (7 :: 0 :: []))))
      = .ok (.vMap [([120], .vInt8 7)], []) ∧
     mapGet [([120], GoVal.vInt8 7)] [120] = some (.vInt8 7)) :=
  ⟨by decide, compound_strict_struct_permissive_map 0 [120] 7 [] [] [] [] (by decide) rfl⟩

/-- C6: encoding the int32 slice [1, 2, 3] as a tag named "a" (byte 0x61)
emits exactly the 21 bytes: List tag 0x09, 2-byte name length 1, the name,
element tag Int 0x03, 4-byte big-endian count 3, then the three big-endian
4-byte payloads with no per-element tag or name (encode.go writeTag slice
case and writeList). -/
theorem list_int32_encoding_bytes (fuel : Nat) :
    writeTag (fuel + 16) [97] (.vSlice .tInt32 [.vInt32 1, .vInt32 2, .vInt32 3])
      = .ok [9, 0, 1, 97, 3, 0, 0, 0, 3, 0, 0, 0, 1, 0, 0, 0, 2, 0, 0, 0, 3] := rfl

/-- C7 counterexample: the claim states the 2-byte prefix equals the byte
length for every string.  The prefix is written through a uint16
conversion (encode.go line 184), so a 65536-byte string records 0: the
claim fails at that input. -/
theorem string_length_prefix_wraps_cex :
    readU16 (writeString (List.replicate 65536 97))
      = .ok (0, List.replicate 65536 97) ∧
    (List.replicate 65536 97).length = 65536 ∧ (0 : Nat) ≠ 65536 := by
  refine ⟨?_, List.length_replicate 65536 97, by decide⟩
  have h1 : writeString (List.replicate 65536 97)
      = u16be 65536 ++ List.replicate 65536 97 := by
    show u16be (List.replicate 65536 97).length ++ List.replicate 65536 97
        = u16be 65536 ++ List.replicate 65536 97
    rw [List.length_replicate]
  rw [h1, show u16be 65536 = [0, 0] from by decide]
  rfl

/-- C7 amended: the emitted text payload is a 2-byte big-endian prefix
holding the byte length reduced modulo 65536, followed by the raw bytes
with no terminator; for every string shorter than 65536 bytes the prefix
equals the exact byte length, counting bytes rather than code points. -/
theorem string_length_prefix_exact (s : List Nat) (h : s.length < 65536) :
    writeValue 8 (.vString s) = .ok (u16be s.length ++ s) ∧
    readU16 (writeString s) = .ok (s.length, s) :=
  ⟨rfl, readU16_u16be s.length h s⟩

/-- Witness for C7 amended: a 6-byte string of 4 code points (two of them
2-byte UTF-8 sequences) records length 6, not 4. -/
theorem string_length_prefix_exact_witness :
    ([97, 195, 169, 98, 195, 169] : List Nat).length < 65536 ∧
    (writeValue 8 (.vString [97, 195, 169, 98, 195, 169])
      = .ok (u16be 6 ++ [97, 195, 169, 98, 195, 169]) ∧
     readU16 (writeString [97, 195, 169, 98, 195, 169])
      = .ok (6, [97, 195, 169, 98, 195, 169])) :=
  ⟨by decide, string_length_prefix_exact [97, 195, 169, 98, 195, 169] (by decide)⟩

/-- C2: the claim states Unmarshal after Marshal restores every supported
value; it fails for the int32 value 65536, which is well inside the
representable range.  Marshal emits the correct root tag bytes
0x03 0x00 0x00 followed by big-endian 65536, but Unmarshal into an int32
target returns 0 because of the 16-bit cast on the tagInt decode path
(decode.go line 171); so the round trip loses the value. -/
theorem roundtrip_int32_fails_at_65536 :
    Marshal (fun x => x) (fun x => x) 0 (some ()) (.vInt32 65536)
      = .ok [3, 0, 0, 0, 1, 0, 0] ∧
    Unmarshal (fun s => .ok s) (fun s => .ok s) 0 (some [3, 0, 0, 0, 1, 0, 0])
        .tInt32 (.vInt32 0)
      = .ok (.vInt32 0) ∧
    (0 : Nat) ≠ 65536 :=
  ⟨rfl, rfl, by decide⟩

end GoNbt
